import Mathlib

/-!
Shallow embedding of two WebKit/JSC source files and proofs about them:

* `src/jit/ExecutableAllocator.cpp` — the demand executable allocator
  (`DemandExecutableAllocator::allocateNewSpace`,
  `ExecutableAllocator::allocate`, `ExecutableAllocator::memoryPressureMultiplier`).
* `src/wasm/js/WebAssemblyModuleRecord.cpp` — the WebAssembly module record
  (`WebAssemblyModuleRecord::link`, `WebAssemblyModuleRecord::evaluate`).

Machine integers are modelled as `Nat` with explicit modular reduction where
the C++ width matters; IEEE doubles in `memoryPressureMultiplier` are modelled
as `WithTop ℚ` (exact rationals plus an explicit infinity for the
division-by-zero case, which in IEEE arithmetic yields +inf); heap-object
identity (`WebAssemblyFunction*` pointers) is modelled by minting a fresh
numeric id from a counter at each `WebAssemblyFunction::create` call.
Fatal assertions (`RELEASE_ASSERT`) are modelled as an explicit `fatal`
outcome, distinct from recoverable thrown JS exceptions (`thrown`).
-/

namespace JSCModel

/-! ## ExecutableAllocator.cpp -/

/-- The artificial executable-memory cap from the commented-out
`#define EXECUTABLE_MEMORY_LIMIT 1000000` in ExecutableAllocator.cpp.
`capEnabled : Bool` below models whether that define is in effect. -/
def EXECUTABLE_MEMORY_LIMIT : Nat := 1000000

/-- `DemandExecutableAllocator::allocateNewSpace(size_t& numPages)`.
Inputs: `pageSize` (OS page size), `largeAllocSize`
(`JIT_ALLOCATOR_LARGE_ALLOC_SIZE`), `aggregateBytesAllocated`
(`bytesAllocatedByAllAllocators()`), and the requested page count.
Returns the rounded-up page count of the fresh reservation, or `none` when
the global cap is configured and aggregate usage already meets it.
A successful path performs `PageReservation::reserve` whose failure is a
`RELEASE_ASSERT`; reservation success is assumed (address space is external). -/
def allocateNewSpace (capEnabled : Bool) (pageSize largeAllocSize : Nat)
    (aggregateBytesAllocated : Nat) (numPages : Nat) : Option Nat :=
  let newNumPages :=
    ((numPages * pageSize + largeAllocSize - 1) / largeAllocSize * largeAllocSize
      + pageSize - 1) / pageSize
  if capEnabled ∧ aggregateBytesAllocated ≥ EXECUTABLE_MEMORY_LIMIT then
    none
  else
    some newNumPages

/-- State of one Region Allocator (a `DemandExecutableAllocator`):
bytes currently sitting in its free list, and bytes handed out live. -/
structure RegionAllocatorState where
  freeBytes : Nat
  bytesAllocated : Nat
deriving DecidableEq, Repr

/-- Modelled from the spec: `MetaAllocator::allocate` (the Region Allocator
`allocate` of spec §4.2) is not part of src/ — only its subclass hook
`allocateNewSpace` is. Per the spec: when the free list can satisfy the
request, carve the handle out of free space; otherwise round the request up
to pages, grow through `allocateNewSpace` (which applies the global-cap
check), and extend the free list with the new chunk before carving. -/
def regionAllocate (capEnabled : Bool) (pageSize largeAllocSize : Nat)
    (aggregateBytesAllocated : Nat) (st : RegionAllocatorState)
    (size : Nat) : Option RegionAllocatorState :=
  if size ≤ st.freeBytes then
    some ⟨st.freeBytes - size, st.bytesAllocated + size⟩
  else
    match allocateNewSpace capEnabled pageSize largeAllocSize
        aggregateBytesAllocated ((size + pageSize - 1) / pageSize) with
    | none => none
    | some newPages =>
        some ⟨st.freeBytes + newPages * pageSize - size, st.bytesAllocated + size⟩

/-- `JITCompilationEffort` from the allocate call. -/
inductive JITCompilationEffort where
  | canFail
  | mustSucceed
deriving DecidableEq, Repr

/-- Outcome of `ExecutableAllocator::allocate`: either the process aborts on
`RELEASE_ASSERT(result || effort != JITCompilationMustSucceed)`, or the
underlying result (possibly null) is returned to the caller. -/
inductive AllocateOutcome where
  | fatalAbort
  | result (handle : Option Nat)
deriving DecidableEq, Repr

/-- `ExecutableAllocator::allocate(VM&, size_t, void*, JITCompilationEffort)`.
`underlying` is the value of `allocator()->allocate(sizeInBytes, ownerUID)`
(the MetaAllocator call, external to this file). -/
def ExecutableAllocator_allocate (underlying : Option Nat)
    (effort : JITCompilationEffort) : AllocateOutcome :=
  match underlying, effort with
  | none, .mustSucceed => .fatalAbort
  | r, _ => .result r

/-- The `result` local of `ExecutableAllocator::memoryPressureMultiplier`
before the final `if (result < 1.0)` clamp. `capEnabled` models whether
`EXECUTABLE_MEMORY_LIMIT` is defined; `aggregate` is
`DemandExecutableAllocator::bytesAllocatedByAllAllocators()`. The C++ double
quotient is modelled exactly in `ℚ`, with `⊤` for the `limit / 0` case
(IEEE: positive/0.0 = +inf). IEEE division is correctly rounded, hence
monotone, so the order facts proved below transfer. -/
def memoryPressureRaw (capEnabled : Bool)
    (aggregate addedMemoryUsage : Nat) : WithTop ℚ :=
  if capEnabled then
    let bytesAllocated := aggregate + addedMemoryUsage
    let bytesAllocated :=
      if bytesAllocated ≥ EXECUTABLE_MEMORY_LIMIT then EXECUTABLE_MEMORY_LIMIT
      else bytesAllocated
    if bytesAllocated = EXECUTABLE_MEMORY_LIMIT then ⊤
    else ((EXECUTABLE_MEMORY_LIMIT : ℚ) / ((EXECUTABLE_MEMORY_LIMIT - bytesAllocated : Nat) : ℚ) : ℚ)
  else
    1

/-- `ExecutableAllocator::memoryPressureMultiplier(size_t addedMemoryUsage)`:
the raw value followed by the `if (result < 1.0) result = 1.0` clamp. -/
def memoryPressureMultiplier (capEnabled : Bool)
    (aggregate addedMemoryUsage : Nat) : WithTop ℚ :=
  let result := memoryPressureRaw capEnabled aggregate addedMemoryUsage
  if result < 1 then 1 else result

/-! ## WebAssemblyModuleRecord.cpp — data model -/

/-- `Wasm::ExternalKind` of an export entry. -/
inductive ExternalKind where
  | function
  | table
  | memory
  | global
deriving DecidableEq, Repr

/-- One entry of `moduleInformation.exports` (`field`, `kind`, `kindIndex`). -/
structure ModuleExport where
  field : String
  kind : ExternalKind
  kindIndex : Nat
deriving DecidableEq, Repr

/-- `Wasm::Type` of a global, restricted to the cases `link` dispatches on. -/
inductive WasmType where
  | i32
  | f32
  | f64
  | other
deriving DecidableEq, Repr

/-- One entry of `moduleInformation.globals`: its declared type and the raw
value that `loadI32Global`/`loadF32Global`/`loadF64Global` would read
(numeric payload abstracted as an integer). Mutability is omitted: `link`
only `ASSERT`s (debug) immutability. -/
structure GlobalInfo where
  type : WasmType
  value : Int
deriving DecidableEq, Repr

/-- `Wasm::Element`: a table offset (`uint32_t`) plus function indices. -/
structure WasmElement where
  offset : Nat
  functionIndices : List Nat
deriving DecidableEq, Repr

/-- `Wasm::Segment`: a linear-memory offset plus a byte payload
(`sizeInBytes` is the payload length). -/
structure WasmSegment where
  offset : Nat
  bytes : List Nat
deriving DecidableEq, Repr

/-- The slice of `Wasm::ModuleInformation` that `link`/`evaluate` read,
together with `module->importCount()`. -/
structure ModuleInformation where
  exports : List ModuleExport
  startFunctionIndexSpace : Option Nat
  globals : List GlobalInfo
  elements : List WasmElement
  data : List WasmSegment
  importCount : Nat
deriving DecidableEq, Repr

/-- A `WebAssemblyFunction*` heap object. `id` is the object identity:
every `WebAssemblyFunction::create` call mints a fresh one. -/
structure WasmFunction where
  id : Nat
  instanceId : Nat
  functionIndex : Nat
deriving DecidableEq, Repr

/-- The `JSWebAssemblyInstance` handed to `link`: its identity and whether
`instance->table()` / `instance->memory()` are non-null. -/
structure WasmInstance where
  id : Nat
  hasTable : Bool
  hasMemory : Bool
deriving DecidableEq, Repr

/-- A value inserted into the module environment by `link`. -/
inductive ExportedValue where
  | function (f : WasmFunction)
  | table (instanceId : Nat)
  | memory (instanceId : Nat)
  | global (v : Int)
deriving DecidableEq, Repr

/-! ## WebAssemblyModuleRecord::link -/

/-- The fields of `WebAssemblyModuleRecord` that `link` reads and writes
before running: here only `m_instance` (empty iff never linked). -/
structure ModuleRecord where
  m_instance : Option Nat
deriving DecidableEq, Repr

/-- Accumulator of the export loop in `link`: the module environment built
so far, `m_startFunction`, and the fresh-object counter. -/
structure LinkAcc where
  env : List (String × ExportedValue)
  startFunction : Option WasmFunction
  nextId : Nat
deriving DecidableEq, Repr

/-- Result of `link`: either a `RELEASE_ASSERT` fault (fatal) or the record
state after linking (environment, start function, `m_instance`, counter). -/
inductive LinkResult where
  | fatal (msg : String)
  | ok (env : List (String × ExportedValue)) (startFunction : Option WasmFunction)
       (m_instance : Option Nat) (nextId : Nat)
deriving DecidableEq, Repr

/-- One iteration of the export loop in `link` (the `switch (exp.kind)`).
`Except.error` is a fatal `RELEASE_ASSERT`. -/
def linkOneExport (inst : WasmInstance) (info : ModuleInformation)
    (hasStart : Bool) (startFunctionIndexSpace : Nat)
    (exp : ModuleExport) (acc : LinkAcc) : Except String LinkAcc :=
  match exp.kind with
  | .function =>
      if exp.kindIndex < info.importCount then
        -- FIXME Implement re-exporting an import (bug 165510).
        .error "RELEASE_ASSERT_NOT_REACHED: re-exporting an import"
      else
        let f : WasmFunction := ⟨acc.nextId, inst.id, exp.kindIndex⟩
        let start :=
          if hasStart ∧ startFunctionIndexSpace = exp.kindIndex then some f
          else acc.startFunction
        .ok ⟨acc.env ++ [(exp.field, .function f)], start, acc.nextId + 1⟩
  | .table =>
      if inst.hasTable then
        .ok ⟨acc.env ++ [(exp.field, .table inst.id)], acc.startFunction, acc.nextId⟩
      else
        .error "RELEASE_ASSERT: instance has no table"
  | .memory =>
      if inst.hasMemory then
        .ok ⟨acc.env ++ [(exp.field, .memory inst.id)], acc.startFunction, acc.nextId⟩
      else
        .error "RELEASE_ASSERT: instance has no memory"
  | .global =>
      match info.globals[exp.kindIndex]? with
      | none => .error "RELEASE_ASSERT: global index out of range"
      | some g =>
          match g.type with
          | .i32 => .ok ⟨acc.env ++ [(exp.field, .global g.value)], acc.startFunction, acc.nextId⟩
          | .f32 => .ok ⟨acc.env ++ [(exp.field, .global g.value)], acc.startFunction, acc.nextId⟩
          | .f64 => .ok ⟨acc.env ++ [(exp.field, .global g.value)], acc.startFunction, acc.nextId⟩
          | .other => .error "RELEASE_ASSERT_NOT_REACHED: bad global type"

/-- The export loop of `link`, in declaration order. -/
def linkExports (inst : WasmInstance) (info : ModuleInformation)
    (hasStart : Bool) (startFunctionIndexSpace : Nat) :
    List ModuleExport → LinkAcc → Except String LinkAcc
  | [], acc => .ok acc
  | exp :: rest, acc =>
      match linkOneExport inst info hasStart startFunctionIndexSpace exp acc with
      | .error msg => .error msg
      | .ok acc1 => linkExports inst info hasStart startFunctionIndexSpace rest acc1

/-- `WebAssemblyModuleRecord::link(ExecState*, JSWebAssemblyInstance*)`.
Walks the exports building the module environment, then creates the start
function if it was not produced by an export, then checks
`RELEASE_ASSERT(!m_instance)` and binds the instance. `nextId` seeds the
fresh-object counter for `WebAssemblyFunction::create`. -/
def link (rec : ModuleRecord) (inst : WasmInstance)
    (info : ModuleInformation) (nextId : Nat) : LinkResult :=
  let hasStart := info.startFunctionIndexSpace.isSome
  let startFunctionIndexSpace := info.startFunctionIndexSpace.getD 0
  match linkExports inst info hasStart startFunctionIndexSpace info.exports
      ⟨[], none, nextId⟩ with
  | .error msg => .fatal msg
  | .ok acc =>
      let acc :=
        if hasStart ∧ acc.startFunction.isNone then
          { acc with
            startFunction := some ⟨acc.nextId, inst.id, startFunctionIndexSpace⟩,
            nextId := acc.nextId + 1 }
        else acc
      if rec.m_instance.isSome then
        .fatal "RELEASE_ASSERT: m_instance already set"
      else
        .ok acc.env acc.startFunction (some inst.id) acc.nextId

/-! ## WebAssemblyModuleRecord::evaluate -/

/-- Mutable state threaded through `evaluate`: the table slots
(`table->size()` is the list length; a slot holds the `WebAssemblyFunction`
stored by `table->setFunction`), the linear memory bytes (`none` when the
instance has no Memory), and the fresh-object counter. -/
structure EvalState where
  table : List (Option WasmFunction)
  memory : Option (List Nat)
  nextId : Nat
deriving DecidableEq, Repr

/-- How an `evaluate` run ends: normally, with a thrown JS `RangeError`
(recoverable), or on a fatal `RELEASE_ASSERT`. -/
inductive EvalStatus where
  | ok
  | thrown (msg : String)
  | fatal (msg : String)
deriving DecidableEq, Repr

/-- Message of `throwVMRangeError` for an out-of-bounds element segment. -/
def elementOutOfBoundsMessage : String :=
  "Element is trying to set an out of bounds table index"

/-- Message of `throwVMRangeError` for a table slot set from an import. -/
def elementImportMessage : String :=
  "Element is setting the table value with an import. This is not yet implemented. FIXME."

/-- `dataSegmentFail`: the `RangeError` message built by `makeString`. -/
def dataSegmentFailMessage (memorySize segmentSize offset : Nat)
    (tail : String) : String :=
  "Invalid data segment initialization: segment of " ++ toString segmentSize
    ++ " bytes memory of " ++ toString memorySize
    ++ " bytes, at offset " ++ toString offset ++ tail

/-- Tail of the "segment too big" `dataSegmentFail` message. -/
def segmentTooBigTail : String := ", segment is too big"

/-- Tail of the "segment writes outside of memory" `dataSegmentFail` message. -/
def segmentOutOfBoundsTail : String := ", segment writes outside of memory"

/-- The inner loop of evaluate phase 1 over one element's
`functionIndices`: reject an import index with a thrown `RangeError`
(state kept as mutated so far), otherwise `WebAssemblyFunction::create`
a fresh wrapper, store it with `table->setFunction(vm, tableIndex, function)`
and increment `tableIndex`. -/
def evalElementFuncs (importCount instId : Nat) :
    List Nat → Nat → EvalState → EvalStatus × EvalState
  | [], _, st => (.ok, st)
  | functionIndex :: rest, tableIndex, st =>
      if functionIndex < importCount then
        (.thrown elementImportMessage, st)
      else
        let f : WasmFunction := ⟨st.nextId, instId, functionIndex⟩
        evalElementFuncs importCount instId rest (tableIndex + 1)
          { st with table := st.table.set tableIndex (some f),
                    nextId := st.nextId + 1 }

/-- `lastWrittenIndex` of evaluate phase 1: computed in `uint64_t`
(`static_cast<uint64_t>(tableIndex) + size - 1`), hence the explicit
reduction mod `2^64`. -/
def lastWrittenIndex (offset count : Nat) : Nat :=
  (offset + count - 1) % 2 ^ 64

/-- Evaluate phase 1 for one `Wasm::Element`: skip when the index list is
empty, bounds-check `lastWrittenIndex` against `table->size()`, then run
the inner loop from `tableIndex = element.offset`. -/
def evalOneElement (importCount instId : Nat) (element : WasmElement)
    (st : EvalState) : EvalStatus × EvalState :=
  if element.functionIndices.length = 0 then (.ok, st)
  else if lastWrittenIndex element.offset element.functionIndices.length
      ≥ st.table.length then
    (.thrown elementOutOfBoundsMessage, st)
  else
    evalElementFuncs importCount instId element.functionIndices element.offset st

/-- Evaluate phase 1: all element segments in declaration order. -/
def evalElements (importCount instId : Nat) :
    List WasmElement → EvalState → EvalStatus × EvalState
  | [], st => (.ok, st)
  | element :: rest, st =>
      match evalOneElement importCount instId element st with
      | (.ok, st1) => evalElements importCount instId rest st1
      | r => r

/-- `memcpy(memory + segment->offset, &segment->byte(0), segment->sizeInBytes)`
on the bounds-checked range (the checks in `evalDataSegments` guarantee
`offset + bytes.length ≤ mem.length`). -/
def copySegment (mem : List Nat) (offset : Nat) (bytes : List Nat) : List Nat :=
  mem.take offset ++ bytes ++ mem.drop (offset + bytes.length)

/-- Evaluate phase 2 inner loop over the data segments, against a memory of
`mem.length` (`jsMemory->memory()->size()`) bytes. Zero-length segments are
skipped without any check; a failed check throws, keeping the memory as
mutated by the earlier segments. -/
def evalDataSegments : List WasmSegment → List Nat → EvalStatus × List Nat
  | [], mem => (.ok, mem)
  | segment :: rest, mem =>
      if segment.bytes.length ≠ 0 then
        if mem.length < segment.bytes.length then
          (.thrown (dataSegmentFailMessage mem.length segment.bytes.length
            segment.offset segmentTooBigTail), mem)
        else if segment.offset > mem.length - segment.bytes.length then
          (.thrown (dataSegmentFailMessage mem.length segment.bytes.length
            segment.offset segmentOutOfBoundsTail), mem)
        else
          evalDataSegments rest (copySegment mem segment.offset segment.bytes)
      else
        evalDataSegments rest mem

/-- Evaluate phase 2: when the data list is non-empty,
`RELEASE_ASSERT(jsMemory)` (fatal without a Memory), then run the segment
loop over the memory bytes. -/
def evalData (data : List WasmSegment) (st : EvalState) : EvalStatus × EvalState :=
  if data.isEmpty then (.ok, st)
  else
    match st.memory with
    | none => (.fatal "RELEASE_ASSERT: data segments require a memory", st)
    | some mem =>
        match evalDataSegments data mem with
        | (status, mem1) => (status, { st with memory := some mem1 })

/-- `WebAssemblyModuleRecord::evaluate(ExecState*)`: phase 1 (tables),
phase 2 (linear memory), then phase 3 — calling `m_startFunction` if set.
The start function body is external compiled code; `startCall` gives the
outcome of that external call (`none` = returned normally, `some msg` =
threw, propagated unchanged by `RETURN_IF_EXCEPTION`). -/
def evaluate (startCall : WasmFunction → Option String)
    (startFunction : Option WasmFunction) (info : ModuleInformation)
    (instId : Nat) (st : EvalState) : EvalStatus × EvalState :=
  match evalElements info.importCount instId info.elements st with
  | (.ok, st1) =>
      match evalData info.data st1 with
      | (.ok, st2) =>
          match startFunction with
          | some f =>
              match startCall f with
              | some msg => (.thrown msg, st2)
              | none => (.ok, st2)
          | none => (.ok, st2)
      | r => r
  | r => r

/-! ## Theorems: ExecutableAllocator claims -/

/-- The final clamp of `memoryPressureMultiplier` is monotone. -/
lemma clamp_mono {x y : WithTop ℚ} (h : x ≤ y) :
    (if x < 1 then (1 : WithTop ℚ) else x) ≤ (if y < 1 then 1 else y) := by
  split
  · split
    · exact le_rfl
    · next hy => exact not_lt.1 hy
  · split
    · next hx hy => exact absurd (lt_of_le_of_lt h hy) hx
    · exact h

/-- The final clamp of `memoryPressureMultiplier` yields a value ≥ 1. -/
lemma one_le_clamp (x : WithTop ℚ) :
    (1 : WithTop ℚ) ≤ if x < 1 then 1 else x := by
  split
  · exact le_rfl
  · next hx => exact not_lt.1 hx

/-- The clamped byte count inside `memoryPressureRaw` is monotone
and bounded by the cap. -/
lemma clampedBytes_le {n : Nat} :
    (if n ≥ EXECUTABLE_MEMORY_LIMIT then EXECUTABLE_MEMORY_LIMIT else n)
      ≤ EXECUTABLE_MEMORY_LIMIT := by
  split
  · exact le_rfl
  · next h => exact le_of_lt (not_le.1 h)

/-- Monotonicity of the clamped byte count. -/
lemma clampedBytes_mono {m n : Nat} (h : m ≤ n) :
    (if m ≥ EXECUTABLE_MEMORY_LIMIT then EXECUTABLE_MEMORY_LIMIT else m)
      ≤ if n ≥ EXECUTABLE_MEMORY_LIMIT then EXECUTABLE_MEMORY_LIMIT else n := by
  split
  · split
    · exact le_rfl
    · next hm hn => exact absurd (le_trans hm h) hn
  · split
    · next hm hn => exact le_of_lt (not_le.1 hm)
    · exact h

/-- The quotient piece `limit / (limit - b)` (with `⊤` at `b = limit`) is
monotone in the clamped byte count `b`. -/
lemma pressure_piece_mono {b c : Nat} (hbc : b ≤ c)
    (hc : c ≤ EXECUTABLE_MEMORY_LIMIT) :
    (if b = EXECUTABLE_MEMORY_LIMIT then (⊤ : WithTop ℚ)
      else ((EXECUTABLE_MEMORY_LIMIT : ℚ) / ((EXECUTABLE_MEMORY_LIMIT - b : Nat) : ℚ) : ℚ))
    ≤ (if c = EXECUTABLE_MEMORY_LIMIT then (⊤ : WithTop ℚ)
      else ((EXECUTABLE_MEMORY_LIMIT : ℚ) / ((EXECUTABLE_MEMORY_LIMIT - c : Nat) : ℚ) : ℚ)) := by
  by_cases hcL : c = EXECUTABLE_MEMORY_LIMIT
  · simp [hcL]
  · have hcL2 : c < EXECUTABLE_MEMORY_LIMIT := lt_of_le_of_ne hc hcL
    have hbL : b ≠ EXECUTABLE_MEMORY_LIMIT := by omega
    rw [if_neg hbL, if_neg hcL]
    rw [WithTop.coe_le_coe]
    have hden2 : (0 : ℚ) < ((EXECUTABLE_MEMORY_LIMIT - c : Nat) : ℚ) := by
      have : 0 < EXECUTABLE_MEMORY_LIMIT - c := by omega
      exact_mod_cast this
    have hden1 : ((EXECUTABLE_MEMORY_LIMIT - c : Nat) : ℚ)
        ≤ ((EXECUTABLE_MEMORY_LIMIT - b : Nat) : ℚ) := by
      have : EXECUTABLE_MEMORY_LIMIT - c ≤ EXECUTABLE_MEMORY_LIMIT - b := by omega
      exact_mod_cast this
    have hnum : (0 : ℚ) ≤ (EXECUTABLE_MEMORY_LIMIT : ℚ) := by positivity
    exact div_le_div_of_nonneg_left hnum hden2 hden1 |>.trans_eq rfl

/-- The raw pressure value is monotone in `addedMemoryUsage`. -/
lemma memoryPressureRaw_mono (capEnabled : Bool) (aggregate : Nat)
    {a b : Nat} (h : a ≤ b) :
    memoryPressureRaw capEnabled aggregate a
      ≤ memoryPressureRaw capEnabled aggregate b := by
  cases capEnabled with
  | false => simp [memoryPressureRaw]
  | true =>
      simp only [memoryPressureRaw, if_true]
      exact pressure_piece_mono
        (clampedBytes_mono (Nat.add_le_add_left h aggregate)) clampedBytes_le

/-- C9: `memoryPressureMultiplier(addedBytes)` is monotonically
non-decreasing in `addedBytes`, its result is always ≥ 1.0, and with no
cap configured it is exactly 1.0 for every `addedBytes`. -/
theorem c9_memoryPressureMultiplier :
    (∀ (capEnabled : Bool) (aggregate a b : Nat), a ≤ b →
      memoryPressureMultiplier capEnabled aggregate a
        ≤ memoryPressureMultiplier capEnabled aggregate b)
    ∧ (∀ (capEnabled : Bool) (aggregate a : Nat),
      (1 : WithTop ℚ) ≤ memoryPressureMultiplier capEnabled aggregate a)
    ∧ (∀ (aggregate a : Nat), memoryPressureMultiplier false aggregate a = 1) := by
  refine ⟨?_, ?_, ?_⟩
  · intro capEnabled aggregate a b h
    exact clamp_mono (memoryPressureRaw_mono capEnabled aggregate h)
  · intro capEnabled aggregate a
    exact one_le_clamp _
  · intro aggregate a
    simp [memoryPressureMultiplier, memoryPressureRaw]

/-- Witness for C9: the monotonicity part applied at a concrete input. -/
theorem c9_memoryPressureMultiplier_witness :
    (3 : Nat) ≤ 5
    ∧ memoryPressureMultiplier true 0 3 ≤ memoryPressureMultiplier true 0 5 :=
  ⟨by decide, c9_memoryPressureMultiplier.1 true 0 3 5 (by decide)⟩

/-- C8: `ExecutableAllocator::allocate` returns the underlying result
(null included) to the caller whenever the effort flag is not
`JITCompilationMustSucceed`; with `JITCompilationMustSucceed` and a null
underlying result the `RELEASE_ASSERT` aborts the process instead of
returning null. -/
theorem c8_allocate_effort :
    (∀ underlying : Option Nat,
      ExecutableAllocator_allocate underlying .canFail = .result underlying)
    ∧ (∀ h : Nat,
      ExecutableAllocator_allocate (some h) .mustSucceed = .result (some h))
    ∧ ExecutableAllocator_allocate none .mustSucceed = .fatalAbort := by
  refine ⟨?_, ?_, rfl⟩
  · intro u; cases u <;> rfl
  · intro h; rfl

/-- C7 counterexample: with the cap configured and aggregate usage already
equal to the cap, an `allocate` whose request the free list can satisfy
still succeeds (no growth, hence no cap check), refuting "every allocate
call fails once aggregate usage reaches the cap". -/
theorem c7_counterexample :
    EXECUTABLE_MEMORY_LIMIT ≤ EXECUTABLE_MEMORY_LIMIT
    ∧ regionAllocate true 4096 65536 EXECUTABLE_MEMORY_LIMIT ⟨64, 0⟩ 16
        = some ⟨48, 16⟩ := by
  exact ⟨le_rfl, by rfl⟩

/-- C7 (amended): with the cap configured, `allocateNewSpace` returns null
immediately — before any reservation attempt — exactly when aggregate
bytes-allocated already meets or exceeds the cap; consequently every
`allocate` call that needs growth (the free list cannot satisfy it) fails
once aggregate usage reaches the cap, while a growth request made with
aggregate usage below the cap proceeds to reserve. -/
theorem c7_cap_check (pageSize largeAllocSize numPages size aggregate : Nat)
    (st : RegionAllocatorState) :
    (aggregate ≥ EXECUTABLE_MEMORY_LIMIT →
      allocateNewSpace true pageSize largeAllocSize aggregate numPages = none)
    ∧ (aggregate < EXECUTABLE_MEMORY_LIMIT →
      (allocateNewSpace true pageSize largeAllocSize aggregate numPages).isSome = true)
    ∧ (aggregate ≥ EXECUTABLE_MEMORY_LIMIT → st.freeBytes < size →
      regionAllocate true pageSize largeAllocSize aggregate st size = none) := by
  refine ⟨?_, ?_, ?_⟩
  · intro h
    simp [allocateNewSpace, h]
  · intro h
    simp [allocateNewSpace, not_le.2 h]
  · intro h1 h2
    have hn : allocateNewSpace true pageSize largeAllocSize aggregate
        ((size + pageSize - 1) / pageSize) = none := by
      simp [allocateNewSpace, h1]
    simp [regionAllocate, not_le.2 h2, hn]

/-- Witness for C7: the amended theorem applied at concrete inputs. -/
theorem c7_cap_check_witness :
    (EXECUTABLE_MEMORY_LIMIT ≥ EXECUTABLE_MEMORY_LIMIT
      ∧ allocateNewSpace true 4096 65536 EXECUTABLE_MEMORY_LIMIT 3 = none)
    ∧ ((999 : Nat) < EXECUTABLE_MEMORY_LIMIT
      ∧ (allocateNewSpace true 4096 65536 999 3).isSome = true)
    ∧ ((0 : Nat) < 5
      ∧ regionAllocate true 4096 65536 EXECUTABLE_MEMORY_LIMIT ⟨0, 0⟩ 5 = none) :=
  ⟨⟨le_rfl, (c7_cap_check 4096 65536 3 5 EXECUTABLE_MEMORY_LIMIT ⟨0, 0⟩).1 le_rfl⟩,
   ⟨by decide, (c7_cap_check 4096 65536 3 5 999 ⟨0, 0⟩).2.1 (by decide)⟩,
   ⟨by decide, (c7_cap_check 4096 65536 3 5 EXECUTABLE_MEMORY_LIMIT ⟨0, 0⟩).2.2
      le_rfl (by decide)⟩⟩

/-! ## Theorems: WebAssemblyModuleRecord::link claims -/

/-- C6: linking is one-shot — `link` on a record whose `m_instance` is
already set always ends in a fatal `RELEASE_ASSERT` fault, and every
successful `link` leaves `m_instance` set (and can only have started from
an unlinked record), so no record is ever linked twice. -/
theorem c6_link_one_shot :
    (∀ (rec : ModuleRecord) (inst : WasmInstance) (info : ModuleInformation)
        (n : Nat), rec.m_instance.isSome = true →
      ∃ msg, link rec inst info n = .fatal msg)
    ∧ (∀ (rec : ModuleRecord) (inst : WasmInstance) (info : ModuleInformation)
        (n : Nat) (env : List (String × ExportedValue))
        (s : Option WasmFunction) (mi : Option Nat) (ni : Nat),
      link rec inst info n = .ok env s mi ni →
      mi = some inst.id ∧ rec.m_instance = none) := by
  constructor
  · intro rec inst info n h
    cases hx : linkExports inst info info.startFunctionIndexSpace.isSome
        (info.startFunctionIndexSpace.getD 0) info.exports ⟨[], none, n⟩ with
    | error msg => exact ⟨msg, by simp [link, hx]⟩
    | ok acc => exact ⟨"RELEASE_ASSERT: m_instance already set", by simp [link, hx, h]⟩
  · intro rec inst info n env s mi ni h
    simp only [link] at h
    cases hx : linkExports inst info info.startFunctionIndexSpace.isSome
        (info.startFunctionIndexSpace.getD 0) info.exports ⟨[], none, n⟩ with
    | error msg => rw [hx] at h; simp at h
    | ok acc =>
        rw [hx] at h
        cases hrec : rec.m_instance with
        | some v => rw [hrec] at h; simp at h
        | none =>
            rw [hrec] at h
            simp only [Option.isSome_none, Bool.false_eq_true, if_false] at h
            injection h with h1 h2 h3 h4
            exact ⟨h3.symm, rfl⟩

/-- Witness for C6: both parts applied at concrete inputs. -/
theorem c6_link_one_shot_witness :
    ((⟨some 3⟩ : ModuleRecord).m_instance.isSome = true
      ∧ ∃ msg, link ⟨some 3⟩ ⟨0, false, false⟩ ⟨[], none, [], [], [], 0⟩ 0
          = .fatal msg)
    ∧ ((some 0 : Option Nat) = some (⟨0, false, false⟩ : WasmInstance).id
      ∧ (⟨none⟩ : ModuleRecord).m_instance = none) :=
  ⟨⟨rfl, c6_link_one_shot.1 ⟨some 3⟩ ⟨0, false, false⟩ ⟨[], none, [], [], [], 0⟩ 0 rfl⟩,
   c6_link_one_shot.2 ⟨none⟩ ⟨0, false, false⟩ ⟨[], none, [], [], [], 0⟩ 0
     [] none (some 0) 0 (by rfl)⟩

/-- C1 (code bug): `link` mints a fresh `WebAssemblyFunction` for every
function export entry, and `evaluate` mints yet another fresh one for every
element-segment table slot — contrary to the at-most-one-wrapper identity
the code's own spec-quoting comment promises. Concretely: two exports both
naming function index 0 resolve to wrappers with distinct identities
(ids 0 and 1), and an element segment storing function index 0 into two
table slots mints two further distinct wrappers (ids 2 and 3). -/
theorem c1_fresh_wrapper_per_reference :
    link ⟨none⟩ ⟨0, false, false⟩
        ⟨[⟨"a", .function, 0⟩, ⟨"b", .function, 0⟩], none, [], [], [], 0⟩ 0
      = .ok [("a", .function ⟨0, 0, 0⟩), ("b", .function ⟨1, 0, 0⟩)] none (some 0) 2
    ∧ (⟨0, 0, 0⟩ : WasmFunction) ≠ ⟨1, 0, 0⟩
    ∧ evalElementFuncs 0 0 [0, 0] 0 ⟨[none, none], none, 2⟩
        = (.ok, ⟨[some ⟨2, 0, 0⟩, some ⟨3, 0, 0⟩], none, 4⟩) := by
  refine ⟨by rfl, by decide, by rfl⟩

/-- C5 counterexample: a function export whose index falls in the import
range does not produce a recoverable error — `link` hits
`RELEASE_ASSERT_NOT_REACHED()`, a fatal crash. -/
theorem c5_counterexample :
    link ⟨none⟩ ⟨0, false, false⟩ ⟨[⟨"f", .function, 0⟩], none, [], [], [], 1⟩ 0
      = .fatal "RELEASE_ASSERT_NOT_REACHED: re-exporting an import" := by
  rfl

/-- C5 (amended): the two unsupported-feature situations are surfaced
differently — an element segment initializing a table slot from an
import-range function index throws a recoverable RangeError (state kept),
while a function export whose index falls in the import range is a fatal
`RELEASE_ASSERT_NOT_REACHED` crash, not a recoverable error. -/
theorem c5_unsupported_feature (importCount instId functionIndex : Nat)
    (rest : List Nat) (tableIndex : Nat) (st : EvalState)
    (rec : ModuleRecord) (inst : WasmInstance) (info : ModuleInformation)
    (n : Nat) (exp : ModuleExport) (restExp : List ModuleExport)
    (him : functionIndex < importCount)
    (hexp : info.exports = exp :: restExp) (hkind : exp.kind = .function)
    (hidx : exp.kindIndex < info.importCount) :
    evalElementFuncs importCount instId (functionIndex :: rest) tableIndex st
      = (.thrown elementImportMessage, st)
    ∧ link rec inst info n
      = .fatal "RELEASE_ASSERT_NOT_REACHED: re-exporting an import" := by
  constructor
  · simp [evalElementFuncs, him]
  · unfold link linkExports
    rw [hexp]
    simp [linkOneExport, hkind, hidx]

/-- Witness for C5: the amended theorem applied at concrete inputs. -/
theorem c5_unsupported_feature_witness :
    (0 : Nat) < 1
    ∧ ((⟨[⟨"f", .function, 0⟩], none, [], [], [], 1⟩ : ModuleInformation).exports
        = ⟨"f", .function, 0⟩ :: [])
    ∧ (evalElementFuncs 1 0 [0] 0 ⟨[none], none, 0⟩
        = (.thrown elementImportMessage, ⟨[none], none, 0⟩)
      ∧ link ⟨none⟩ ⟨0, false, false⟩ ⟨[⟨"f", .function, 0⟩], none, [], [], [], 1⟩ 0
        = .fatal "RELEASE_ASSERT_NOT_REACHED: re-exporting an import") :=
  ⟨by decide, rfl,
   c5_unsupported_feature 1 0 0 [] 0 ⟨[none], none, 0⟩ ⟨none⟩ ⟨0, false, false⟩
     ⟨[⟨"f", .function, 0⟩], none, [], [], [], 1⟩ 0 ⟨"f", .function, 0⟩ []
     (by decide) rfl rfl (by decide)⟩

/-! ## Theorems: WebAssemblyModuleRecord::evaluate claims -/

/-- The inner element loop either completes or throws the import message —
it never throws the out-of-bounds message. -/
lemma evalElementFuncs_status (importCount instId : Nat) (l : List Nat)
    (ti : Nat) (st : EvalState) :
    (evalElementFuncs importCount instId l ti st).1 = .ok
    ∨ (evalElementFuncs importCount instId l ti st).1
        = .thrown elementImportMessage := by
  induction l generalizing ti st with
  | nil => exact Or.inl rfl
  | cons fi rest ih =>
      by_cases h : fi < importCount
      · right; simp [evalElementFuncs, h]
      · simpa [evalElementFuncs, h] using ih (ti + 1) _

/-- C2: for a non-empty element segment, `evaluate` computes
`lastWrittenIndex = offset + count - 1` in `uint64_t`, which does not wrap
for `offset` and `count` in the 32-bit index range, and throws the
out-of-bounds RangeError exactly when that index reaches `table->size()`;
concretely, offset 5 with 3 indices fails against a table of size 7 and
passes (whole evaluation succeeding) against a table of size 8. -/
theorem c2_element_bounds (e : WasmElement) (importCount instId : Nat)
    (st : EvalState) (hne : e.functionIndices.length ≠ 0)
    (hoff : e.offset < 2 ^ 32) (hcnt : e.functionIndices.length ≤ 2 ^ 32) :
    lastWrittenIndex e.offset e.functionIndices.length
      = e.offset + e.functionIndices.length - 1
    ∧ ((evalOneElement importCount instId e st).1
        = .thrown elementOutOfBoundsMessage
      ↔ st.table.length ≤ e.offset + e.functionIndices.length - 1)
    ∧ evaluate (fun _ => none) none ⟨[], none, [], [⟨5, [0, 1, 2]⟩], [], 0⟩ 0
        ⟨List.replicate 7 none, none, 0⟩
        = (.thrown elementOutOfBoundsMessage, ⟨List.replicate 7 none, none, 0⟩)
    ∧ (evaluate (fun _ => none) none ⟨[], none, [], [⟨5, [0, 1, 2]⟩], [], 0⟩ 0
        ⟨List.replicate 8 none, none, 0⟩).1 = .ok := by
  have hwrap : lastWrittenIndex e.offset e.functionIndices.length
      = e.offset + e.functionIndices.length - 1 := by
    unfold lastWrittenIndex
    apply Nat.mod_eq_of_lt
    have h32 : (2 : Nat) ^ 32 = 4294967296 := by norm_num
    have h64 : (2 : Nat) ^ 64 = 18446744073709551616 := by norm_num
    omega
  refine ⟨hwrap, ?_, rfl, rfl⟩
  simp only [evalOneElement, if_neg hne, hwrap, ge_iff_le]
  by_cases hb : st.table.length ≤ e.offset + e.functionIndices.length - 1
  · simp [hb]
  · rw [if_neg hb]
    constructor
    · intro hthrown
      rcases evalElementFuncs_status importCount instId e.functionIndices
          e.offset st with hok | him
      · exact absurd (hok.symm.trans hthrown) (by decide)
      · exact absurd (him.symm.trans hthrown) (by decide)
    · intro hge
      exact absurd hge hb

/-- Witness for C2: the theorem applied at a concrete element and state. -/
theorem c2_element_bounds_witness :
    ((3 : Nat) ≠ 0 ∧ (5 : Nat) < 2 ^ 32 ∧ (3 : Nat) ≤ 2 ^ 32)
    ∧ lastWrittenIndex 5 3 = 7
    ∧ ((evalOneElement 0 0 ⟨5, [0, 1, 2]⟩ ⟨List.replicate 7 none, none, 0⟩).1
        = .thrown elementOutOfBoundsMessage ↔ 7 ≤ 7) :=
  ⟨⟨by decide, by norm_num, by norm_num⟩,
   (c2_element_bounds ⟨5, [0, 1, 2]⟩ 0 0 ⟨List.replicate 7 none, none, 0⟩
      (by decide) (by norm_num) (by norm_num)).1,
   (c2_element_bounds ⟨5, [0, 1, 2]⟩ 0 0 ⟨List.replicate 7 none, none, 0⟩
      (by decide) (by norm_num) (by norm_num)).2.1⟩

/-- `copySegment` preserves the memory size when the copy is in bounds. -/
lemma copySegment_length (mem : List Nat) (offset : Nat) (bytes : List Nat)
    (h : offset + bytes.length ≤ mem.length) :
    (copySegment mem offset bytes).length = mem.length := by
  simp only [copySegment, List.length_append, List.length_take, List.length_drop]
  omega

/-- `copySegment` writes the payload at `[offset, offset + length)`. -/
lemma copySegment_get_inside (mem : List Nat) (offset : Nat) (bytes : List Nat)
    (h : offset + bytes.length ≤ mem.length) (i : Nat) (hi : i < bytes.length) :
    (copySegment mem offset bytes)[offset + i]? = bytes[i]? := by
  have htake : (mem.take offset).length = offset := by
    simp only [List.length_take]
    omega
  rw [copySegment, List.append_assoc, List.getElem?_append_right (by omega),
    htake, Nat.add_sub_cancel_left, List.getElem?_append_left hi]

/-- `copySegment` leaves bytes before `offset` unchanged. -/
lemma copySegment_get_before (mem : List Nat) (offset : Nat) (bytes : List Nat)
    (h : offset + bytes.length ≤ mem.length) (j : Nat) (hj : j < offset) :
    (copySegment mem offset bytes)[j]? = mem[j]? := by
  have htake : (mem.take offset).length = offset := by
    simp only [List.length_take]
    omega
  rw [copySegment, List.append_assoc, List.getElem?_append_left (by omega),
    List.getElem?_take_of_lt hj]

/-- `copySegment` leaves bytes at and after `offset + length` unchanged. -/
lemma copySegment_get_after (mem : List Nat) (offset : Nat) (bytes : List Nat)
    (h : offset + bytes.length ≤ mem.length) (j : Nat)
    (hj : offset + bytes.length ≤ j) :
    (copySegment mem offset bytes)[j]? = mem[j]? := by
  have htake : (mem.take offset).length = offset := by
    simp only [List.length_take]
    omega
  have hlen : ((mem.take offset ++ bytes).length) = offset + bytes.length := by
    simp [htake]
  rw [copySegment, List.getElem?_append_right (hlen ▸ by omega),
    hlen, List.getElem?_drop]
  congr 1
  omega

/-- C3: a non-empty data segment throws "segment too big" when the memory is
smaller than the segment, otherwise throws "segment writes outside of
memory" when `offset > memorySize - segmentLength`, otherwise copies
exactly the payload into `[offset, offset + length)` leaving all other
bytes and the memory size unchanged; length 10 at offset 5 fails against a
memory of size 12 and succeeds, copying bytes at `[5, 15)`, against a
memory of size 20. -/
theorem c3_data_segment (segment : WasmSegment) (rest : List WasmSegment)
    (mem : List Nat) (hne : segment.bytes.length ≠ 0) :
    (mem.length < segment.bytes.length →
      evalDataSegments (segment :: rest) mem
        = (.thrown (dataSegmentFailMessage mem.length segment.bytes.length
            segment.offset segmentTooBigTail), mem))
    ∧ (segment.bytes.length ≤ mem.length →
        mem.length - segment.bytes.length < segment.offset →
      evalDataSegments (segment :: rest) mem
        = (.thrown (dataSegmentFailMessage mem.length segment.bytes.length
            segment.offset segmentOutOfBoundsTail), mem))
    ∧ (segment.bytes.length ≤ mem.length →
        segment.offset ≤ mem.length - segment.bytes.length →
      evalDataSegments (segment :: rest) mem
        = evalDataSegments rest (copySegment mem segment.offset segment.bytes)
      ∧ (copySegment mem segment.offset segment.bytes).length = mem.length
      ∧ (∀ i < segment.bytes.length,
          (copySegment mem segment.offset segment.bytes)[segment.offset + i]?
            = segment.bytes[i]?)
      ∧ (∀ j < segment.offset,
          (copySegment mem segment.offset segment.bytes)[j]? = mem[j]?)
      ∧ (∀ j, segment.offset + segment.bytes.length ≤ j →
          (copySegment mem segment.offset segment.bytes)[j]? = mem[j]?))
    ∧ evalDataSegments [⟨5, [1, 2, 3, 4, 5, 6, 7, 8, 9, 10]⟩]
        (List.replicate 12 0)
        = (.thrown (dataSegmentFailMessage 12 10 5 segmentOutOfBoundsTail),
           List.replicate 12 0)
    ∧ evalDataSegments [⟨5, [1, 2, 3, 4, 5, 6, 7, 8, 9, 10]⟩]
        (List.replicate 20 0)
        = (.ok, [0, 0, 0, 0, 0, 1, 2, 3, 4, 5, 6, 7, 8, 9, 10, 0, 0, 0, 0, 0]) := by
  refine ⟨?_, ?_, ?_, rfl, rfl⟩
  · intro h
    simp [evalDataSegments, hne, h]
  · intro h1 h2
    rw [evalDataSegments, if_pos hne, if_neg (not_lt.2 h1), if_pos h2]
  · intro h1 h2
    have hbound : segment.offset + segment.bytes.length ≤ mem.length := by omega
    refine ⟨?_, copySegment_length mem segment.offset segment.bytes hbound,
      fun i hi => copySegment_get_inside mem segment.offset segment.bytes hbound i hi,
      fun j hj => copySegment_get_before mem segment.offset segment.bytes hbound j hj,
      fun j hj => copySegment_get_after mem segment.offset segment.bytes hbound j hj⟩
    rw [evalDataSegments, if_pos hne, if_neg (not_lt.2 h1), if_neg (not_lt.2 h2)]

/-- Witness for C3: the theorem applied at a concrete segment and memory. -/
theorem c3_data_segment_witness :
    (10 : Nat) ≠ 0
    ∧ ((List.replicate 12 0 : List Nat).length ≤ 12 ∧ (12 : Nat) - 10 < 5)
    ∧ evalDataSegments [⟨5, [1, 2, 3, 4, 5, 6, 7, 8, 9, 10]⟩]
        (List.replicate 12 0)
        = (.thrown (dataSegmentFailMessage 12 10 5 segmentOutOfBoundsTail),
           List.replicate 12 0) :=
  ⟨by decide, ⟨by decide, by decide⟩,
   (c3_data_segment ⟨5, [1, 2, 3, 4, 5, 6, 7, 8, 9, 10]⟩ [] (List.replicate 12 0)
      (by decide)).2.1 (by decide) (by decide)⟩

/-- C4: a zero-length data segment is skipped with no bounds check and no
error at every offset — including `memorySize + 1000` — copying nothing;
a whole `evaluate` run over such a segment succeeds and leaves the state
untouched. -/
theorem c4_zero_length_segment :
    (∀ (offset : Nat) (rest : List WasmSegment) (mem : List Nat),
      evalDataSegments (⟨offset, []⟩ :: rest) mem = evalDataSegments rest mem)
    ∧ (∀ (mem : List Nat) (tbl : List (Option WasmFunction)) (n instId : Nat)
        (startCall : WasmFunction → Option String),
      evaluate startCall none
          ⟨[], none, [], [], [⟨mem.length + 1000, []⟩], 0⟩ instId
          ⟨tbl, some mem, n⟩
        = (.ok, ⟨tbl, some mem, n⟩)) := by
  constructor
  · intro offset rest mem
    simp [evalDataSegments]
  · intro mem tbl n instId startCall
    simp [evaluate, evalElements, evalData, evalDataSegments]

/-- When the data-segment loop throws, the memory it hands back is exactly
the result of successfully copying some proper prefix of the segments:
nothing is rolled back. -/
lemma evalDataSegments_thrown (segs : List WasmSegment) (mem : List Nat)
    (msg : String) (mem2 : List Nat)
    (h : evalDataSegments segs mem = (.thrown msg, mem2)) :
    ∃ k, k < segs.length ∧ evalDataSegments (segs.take k) mem = (.ok, mem2) := by
  induction segs generalizing mem with
  | nil => simp [evalDataSegments] at h
  | cons seg rest ih =>
      rw [evalDataSegments] at h
      by_cases hz : seg.bytes.length ≠ 0
      · rw [if_pos hz] at h
        by_cases h1 : mem.length < seg.bytes.length
        · rw [if_pos h1] at h
          have h2 := congrArg Prod.snd h
          simp only at h2
          refine ⟨0, by simp, ?_⟩
          simp [evalDataSegments, h2]
        · rw [if_neg h1] at h
          by_cases h2 : seg.offset > mem.length - seg.bytes.length
          · rw [if_pos h2] at h
            have h3 := congrArg Prod.snd h
            simp only at h3
            refine ⟨0, by simp, ?_⟩
            simp [evalDataSegments, h3]
          · rw [if_neg h2] at h
            obtain ⟨k, hk, hks⟩ := ih (copySegment mem seg.offset seg.bytes) h
            refine ⟨k + 1, by simpa using Nat.succ_lt_succ hk, ?_⟩
            rw [List.take_succ_cons, evalDataSegments, if_pos hz, if_neg h1,
              if_neg h2]
            exact hks
      · rw [if_neg hz] at h
        obtain ⟨k, hk, hks⟩ := ih mem h
        refine ⟨k + 1, by simpa using Nat.succ_lt_succ hk, ?_⟩
        rw [List.take_succ_cons, evalDataSegments, if_neg hz]
        exact hks

/-- C10: evaluation is not atomic on error — when a data-segment bounds
check throws a RangeError, `evaluate` returns with every phase-1 table
write still in place (final table = the post-phase-1 table) and with the
linear memory exactly as produced by successfully copying the earlier
(declaration-order) data segments; nothing is rolled back. -/
theorem c10_no_rollback (startCall : WasmFunction → Option String)
    (startFunction : Option WasmFunction) (info : ModuleInformation)
    (instId : Nat) (st st1 : EvalState) (mem mem2 : List Nat) (msg : String)
    (h1 : evalElements info.importCount instId info.elements st = (.ok, st1))
    (hm : st1.memory = some mem)
    (h2 : evalDataSegments info.data mem = (.thrown msg, mem2)) :
    evaluate startCall startFunction info instId st
      = (.thrown msg, ⟨st1.table, some mem2, st1.nextId⟩)
    ∧ ∃ k, k < info.data.length
        ∧ evalDataSegments (info.data.take k) mem = (.ok, mem2) := by
  have hne : info.data ≠ [] := by
    intro hnil
    rw [hnil] at h2
    simp [evalDataSegments] at h2
  have hd : evalData info.data st1
      = (.thrown msg, ⟨st1.table, some mem2, st1.nextId⟩) := by
    unfold evalData
    rw [if_neg (by simp [hne])]
    rw [hm]
    simp only [h2]
  refine ⟨?_, evalDataSegments_thrown info.data mem msg mem2 h2⟩
  simp only [evaluate, h1, hd]

/-- Witness for C10: a concrete module whose first data segment copies and
whose second throws; the table slot written in phase 1 and the bytes copied
by the first segment survive in the returned state. -/
theorem c10_no_rollback_witness :
    evaluate (fun _ => none) none
        ⟨[], none, [], [⟨0, [0]⟩], [⟨0, [7]⟩, ⟨2, [8, 8]⟩], 0⟩ 0
        ⟨[none], some [0, 0, 0], 0⟩
      = (.thrown (dataSegmentFailMessage 3 2 2 segmentOutOfBoundsTail),
         ⟨[some ⟨0, 0, 0⟩], some [7, 0, 0], 1⟩)
    ∧ ∃ k, k < ([⟨0, [7]⟩, ⟨2, [8, 8]⟩] : List WasmSegment).length
        ∧ evalDataSegments (([⟨0, [7]⟩, ⟨2, [8, 8]⟩] : List WasmSegment).take k)
            [0, 0, 0] = (.ok, [7, 0, 0]) :=
  c10_no_rollback (fun _ => none) none
    ⟨[], none, [], [⟨0, [0]⟩], [⟨0, [7]⟩, ⟨2, [8, 8]⟩], 0⟩ 0
    ⟨[none], some [0, 0, 0], 0⟩ ⟨[some ⟨0, 0, 0⟩], some [0, 0, 0], 1⟩
    [0, 0, 0] [7, 0, 0] (dataSegmentFailMessage 3 2 2 segmentOutOfBoundsTail)
    (by rfl) (by rfl) (by rfl)

end JSCModel
